import Mathlib

/-!
Verification development for the metric-gen annotation-resolution and
generator-assembly engine of the kube-state-metrics custom-resource metrics
generator.

The Go sources are shallowly embedded as Lean definitions:
* the `customresourcestate` output types (`MetricMeta`, `Metric`, `Generator`,
  `Resource`) become plain structures; Go's tagged struct `Metric` (a `Type`
  field plus three payload pointers, exactly one of which is non-nil by
  construction) becomes a closed inductive with three constructors;
* Go maps become association lists with unique keys;
* marker (annotation) values become structures and `ToGenerator` /
  `ApplyToResource` become functions; `klog.Fatal` on a path-expression parse
  error is modelled as error propagation in `Except`;
* the path-expression parser `JSONPath.Parse` wraps an external library
  (`k8s.io/client-go/util/jsonpath`); that external call is a parameter
  producing an abstract parse tree, and the wrapper logic from the source is
  embedded over those trees;
* the in-place mutation of `*parser` / `*Resource` becomes explicit state
  passing, and `klog.Fatal` (process abort) becomes an error result;
* unbounded recursion in `NeedMetricsGeneratorFor` is modelled with fuel:
  the `fuelOut` result means the Go code has not returned within the given
  recursion depth.
-/

deriving instance DecidableEq for Except

namespace CRSM

/-- Lexicographic comparison of character lists by code point, structurally
recursive so that it evaluates inside the kernel. -/
def charListLt : List Char → List Char → Bool
  | _, [] => false
  | [], _ :: _ => true
  | a :: as, b :: bs =>
    Nat.blt a.toNat b.toNat || (a.toNat == b.toNat && charListLt as bs)

/-- Go's built-in `<` on strings: lexicographic comparison (byte-wise in Go,
code-point-wise here; identical on ASCII data). -/
def goStrLess (a b : String) : Bool := charListLt a.data b.data

/-- Abstraction of `JSONPath.Parse` (markers/markers.go): resolving a path
expression string to its segment list, or a parse error.  The marker
`ToGenerator` / `ApplyToResource` bodies treat `Parse` as a black box, so they
are parameterised over it. -/
abbrev Parse := String → Except String (List String)

/-- `customresourcestate.MetricMeta`: the path locating the value and the
per-label path map (Go `map[string][]string`, modelled as an association
list with unique keys). -/
structure MetricMeta where
  path : List String
  labelsFromPath : List (String × List String)
deriving DecidableEq

/-- `customresourcestate.MetricGauge`. -/
structure MetricGauge where
  meta : MetricMeta
  labelFromKey : String
  nilIsZero : Bool
  valueFrom : List String
deriving DecidableEq

/-- `customresourcestate.MetricInfo`. -/
structure MetricInfo where
  meta : MetricMeta
  labelFromKey : String
deriving DecidableEq

/-- `customresourcestate.MetricStateSet`. -/
structure MetricStateSet where
  meta : MetricMeta
  list : List String
  labelName : String
  valueFrom : List String
deriving DecidableEq

/-- `customresourcestate.Metric`: in Go a struct with a `Type` discriminator
and three payload pointers of which exactly one is non-nil at every
construction site; embedded as a closed tagged union. -/
inductive Metric where
  | gauge (g : MetricGauge)
  | info (i : MetricInfo)
  | stateSet (s : MetricStateSet)
deriving DecidableEq

/-- `customresourcestate.Generator`: one emitted metric definition. -/
structure Generator where
  name : String
  help : String
  each : Metric
deriving DecidableEq

/-- `customresourcestate.GroupVersionKind`. -/
structure GroupVersionKind where
  group : String
  version : String
  kind : String
deriving DecidableEq

/-- `customresourcestate.Resource`.  `MetricNamePrefix` is a `*string` in Go
(`none` = nil); `LabelsFromPath` is a Go map that can itself be nil, hence
`Option` around the association list.  (The Go field name ends in a word this
development cannot use as an identifier suffix, so the field is called
`metricNamePfx` here.) -/
structure Resource where
  groupVersionKind : GroupVersionKind
  metricNamePfx : Option String
  labelsFromPath : Option (List (String × List String))
  metrics : List Generator
deriving DecidableEq

/-- The common payload metadata, extracted symmetrically from each variant. -/
def Metric.metaOf : Metric → MetricMeta
  | .gauge g => g.meta
  | .info i => i.meta
  | .stateSet s => s.meta

/-- The stored path of a generator, for any payload kind. -/
def Generator.path (g : Generator) : List String :=
  g.each.metaOf.path

/-- The per-label path map of a generator, for any payload kind. -/
def Generator.labelsOf (g : Generator) : List (String × List String) :=
  g.each.metaOf.labelsFromPath

/-- The `ValueFrom` field of a generator payload (absent for Info). -/
def Generator.valueFromOf (g : Generator) : Option (List String) :=
  match g.each with
  | .gauge x => some x.valueFrom
  | .info _ => none
  | .stateSet x => some x.valueFrom

/-- Effectful map over a list in `Except`, mirroring the Go loops that build a
result slice and abort at the first error (`klog.Fatal`). -/
def mapMEx {α β : Type} (f : α → Except String β) : List α → Except String (List β)
  | [] => .ok []
  | a :: rest => do
    let b ← f a
    let tail ← mapMEx f rest
    pure (b :: tail)

/-! ### Marker (annotation) value types -/

/-- `metric.GaugeMarker` (marker_gauge.go).  `JSONPath` fields hold the raw
path-expression strings. -/
structure GaugeMarker where
  name : String
  help : String
  jsonPath : String
  labelFromKey : String
  labelsFromPath : List (String × String)
  nilIsZero : Bool
  valueFrom : Option String
deriving DecidableEq

/-- `metric.InfoMarker` (marker_info.go). -/
structure InfoMarker where
  name : String
  help : String
  labelsFromPath : List (String × String)
  jsonPath : String
  labelFromKey : String
deriving DecidableEq

/-- `metric.StateSetMarker` (marker_stateset.go).  `JSONPath` is a pointer in
Go, hence `Option`. -/
structure StateSetMarker where
  name : String
  help : String
  labelsFromPath : List (String × String)
  jsonPath : Option String
  labelName : String
  list : List String
deriving DecidableEq

/-- `metric.LabelFromPathMarker` (markers.go). -/
structure LabelFromPathMarker where
  name : String
  jsonPath : String
deriving DecidableEq

/-- The `var valueFrom []string; if m.JSONPath != nil { valueFrom, err =
m.JSONPath.Parse() }` pattern shared by the gauge and state-set markers: an
absent optional path expression yields the empty segment list. -/
def resolveOptJSONPath (parse : Parse) : Option String → Except String (List String)
  | none => pure []
  | some v => parse v

/-- One iteration of the `labelsFromPath` loop of the gauge and info markers:
an entry whose expression is exactly `.` becomes the empty path without a
parse; any other entry is parsed (`klog.Fatal` on failure, modelled as the
error). -/
def resolveLabelEntrySkipDot (parse : Parse) (kv : String × String) :
    Except String (String × List String) :=
  if kv.2 ≠ "." then do
    let p ← parse kv.2
    pure (kv.1, p)
  else
    pure (kv.1, ([] : List String))

/-- One iteration of the `labelsFromPath` loop of the state-set marker: every
entry is parsed, with no special case. -/
def resolveLabelEntry (parse : Parse) (kv : String × String) :
    Except String (String × List String) := do
  let p ← parse kv.2
  pure (kv.1, p)

/-- `GaugeMarker.ToGenerator` (marker_gauge.go lines 61-105): parse the
marker's own JSONPath, parse `valueFrom` when present, resolve the per-label
paths (an entry that is exactly `.` is mapped to the empty path without
parsing), and store `basePath ++ additionalPath` as the metric path. -/
def GaugeMarker.toGenerator (g : GaugeMarker) (parse : Parse) (basePath : List String) :
    Except String Generator := do
  let additionalPath ← parse g.jsonPath
  let valueFrom ← resolveOptJSONPath parse g.valueFrom
  let labelsFromPath ← mapMEx (resolveLabelEntrySkipDot parse) g.labelsFromPath
  let path := basePath ++ additionalPath
  pure
    { name := g.name
      help := g.help
      each := .gauge
        { nilIsZero := g.nilIsZero
          meta := { path := path, labelsFromPath := labelsFromPath }
          labelFromKey := g.labelFromKey
          valueFrom := valueFrom } }

/-- `InfoMarker.ToGenerator` (marker_info.go lines 321-360): the path is
`basePath` verbatim, except when the marker has a non-empty JSONPath that
resolves to a non-empty segment list, in which case the segments are appended
after `basePath`. -/
def InfoMarker.toGenerator (i : InfoMarker) (parse : Parse) (basePath : List String) :
    Except String Generator := do
  let path ←
    if i.jsonPath ≠ "" then do
      let valueFrom ← parse i.jsonPath
      pure (if valueFrom.length > 0 then basePath ++ valueFrom else basePath)
    else
      pure basePath
  let labelsFromPath ← mapMEx (resolveLabelEntrySkipDot parse) i.labelsFromPath
  pure
    { name := i.name
      help := i.help
      each := .info
        { meta := { path := path, labelsFromPath := labelsFromPath }
          labelFromKey := i.labelFromKey } }

/-- `StateSetMarker.ToGenerator` (marker_stateset.go lines 60-97): the path is
always `basePath`; a JSONPath, when present, is parsed into `valueFrom`; the
per-label paths are parsed unconditionally (no special case for `.`). -/
def StateSetMarker.toGenerator (s : StateSetMarker) (parse : Parse) (basePath : List String) :
    Except String Generator := do
  let path := basePath
  let valueFrom ← resolveOptJSONPath parse s.jsonPath
  let labelsFromPath ← mapMEx (resolveLabelEntry parse) s.labelsFromPath
  pure
    { name := s.name
      help := s.help
      each := .stateSet
        { meta := { path := path, labelsFromPath := labelsFromPath }
          list := s.list
          labelName := s.labelName
          valueFrom := valueFrom } }

/-- Go `%q` formatting of a label name (no escaping needed for plain names). -/
def goQuote (s : String) : String := "\"" ++ s ++ "\""

/-- Lookup in the association-list model of a Go map. -/
def listLookup : List (String × List String) → String → Option (List String)
  | [], _ => none
  | kv :: rest, k => if kv.1 == k then some kv.2 else listLookup rest k

/-- Insertion in the association-list model of a Go map: replace the value at
an existing key, otherwise append. -/
def listInsert : List (String × List String) → String → List String → List (String × List String)
  | [], k, v => [(k, v)]
  | kv :: rest, k, v => if kv.1 == k then (k, v) :: rest else kv :: listInsert rest k v

/-- The element-wise comparison loop of `LabelFromPathMarker.ApplyToResource`
(run only once the lengths are known to be equal). -/
def pathsDiffer (existing elems : List String) : Bool :=
  (existing.zip elems).any fun p => p.1 != p.2

/-- Lookup through the optional (possibly nil) label map of a resource. -/
def lfpLookup (lfp? : Option (List (String × List String))) (k : String) :
    Option (List String) :=
  match lfp? with
  | none => none
  | some l => listLookup l k

/-- `LabelFromPathMarker.ApplyToResource` (markers.go lines 241-263), with the
in-place mutation of `*Resource` made explicit: the result pairs the resource
as left behind by the call with the returned error (`none` = nil error).
The nil label map is replaced by an empty one first; then the marker's
JSONPath is resolved; if the label name is already present with a path that
differs in length or in any element, a conflict error is returned before
anything is written; otherwise the entry is written. -/
def LabelFromPathMarker.applyToResource (n : LabelFromPathMarker) (parse : Parse)
    (resource : Resource) : Resource × Option String :=
  let resource :=
    match resource.labelsFromPath with
    | none => { resource with labelsFromPath := some [] }
    | some _ => resource
  let lfp := resource.labelsFromPath.getD []
  match parse n.jsonPath with
  | .error e => (resource, some e)
  | .ok jsonPathElems =>
    match listLookup lfp n.name with
    | some jsonPath =>
      if jsonPathElems.length ≠ jsonPath.length then
        (resource, some ("duplicate definition for label " ++ goQuote n.name))
      else if pathsDiffer jsonPath jsonPathElems then
        (resource, some ("duplicate definition for label " ++ goQuote n.name))
      else
        ({ resource with labelsFromPath := some (listInsert lfp n.name jsonPathElems) }, none)
    | none =>
      ({ resource with labelsFromPath := some (listInsert lfp n.name jsonPathElems) }, none)

/-- `NamePrefixMarker.ApplyToResource` (markers.go lines 185-188):
unconditionally overwrite the name-prefix field. -/
def namePfxApplyToResource (n : String) (resource : Resource) : Resource × Option String :=
  ({ resource with metricNamePfx := some n }, none)

/-! ### The path-expression wrapper `JSONPath.Parse`

`JSONPath.Parse` (markers.go lines 198-228) hands the braced expression to the
external library `k8s.io/client-go/util/jsonpath` and then post-processes the
root nodes of the returned parse tree.  The external parser is abstracted as a
function producing a list of root nodes; the wrapper logic below is embedded
from the source. -/

/-- A node inside a `jsonpath.ListNode`: either a `jsonpath.FieldNode`
carrying a plain field name, or any other node kind (array, wildcard, filter,
…), which the wrapper rejects. -/
inductive JPElem where
  | field (value : String)
  | other
deriving DecidableEq

/-- A root node of the external parse tree: either a `jsonpath.ListNode`
(selector chain) or a node whose dynamic type is not `NodeList`
(for example a text node). -/
inductive JPNode where
  | list (elems : List JPElem)
  | nonList
deriving DecidableEq

/-- The loop over `list.Nodes` in `JSONPath.Parse`: collect the field names in
order; the first element that is not a `FieldNode` aborts with an error. -/
def elemsToFields : List JPElem → Except String (List String)
  | [] => .ok []
  | .field v :: rest => do
    let tail ← elemsToFields rest
    pure (v :: tail)
  | .other :: _ => .error "unable to typecast to jsonpath.NodeField"

/-- The root-node dispatch of `JSONPath.Parse`: more than one root node is an
error; the single root node must be a `ListNode` of `FieldNode`s.  The outer
`Option` models the Go panic (index out of range on `Nodes[0]`) that would
occur on an empty root-node list; the external parser never returns one for a
braced template, so this case is unreachable from actual expressions. -/
def rootNodesToPath (nodes : List JPNode) : Option (Except String (List String)) :=
  if nodes.length > 1 then
    some (.error ("expected a single JSONPath, got " ++ toString nodes.length))
  else
    match nodes with
    | [] => none
    | n :: _ =>
      some
        (match n with
          | .list elems => elemsToFields elems
          | .nonList => .error "unexcepted jsonpath node type")

/-- `JSONPath.Parse` over an abstract external parser: `external j` stands for
`jsonpath.Parse("foo", "{" + j + "}").Root.Nodes`.  An external parse error is
wrapped with the `parse JSONPath:` message as in the source. -/
def jsonPathParse (external : String → Except String (List JPNode)) (j : String) :
    Option (Except String (List String)) :=
  match external j with
  | .error e => some (.error ("parse JSONPath: " ++ e))
  | .ok nodes => rootNodesToPath nodes

/-! ### Document Assembler: the resource sort comparison

`Generator.Generate` (generator.go lines 90-106) sorts the collected
resources with a `sort.Slice` comparison function. -/

/-- The string `Group/Version/Kind` used as the sort key when neither resource
has a metric name prefix. -/
def gvkString (r : Resource) : String :=
  r.groupVersionKind.group ++ "/" ++ r.groupVersionKind.version ++ "/" ++
    r.groupVersionKind.kind

/-- The `sort.Slice` less function of `Generator.Generate` (generator.go lines
90-106), embedded literally: when both prefixes are nil, compare the
`Group/Version/Kind` strings; otherwise `a` is left `""` unless the left
prefix is nil — in which case the Go code dereferences the nil pointer, which
is modelled as `none` (panic) — and `b` is the right prefix when non-nil.
(The guard on the left operand reads `== nil` in the source where the
accompanying comment implies `!= nil`.) -/
def resourceLess (ri rj : Resource) : Option Bool :=
  if ri.metricNamePfx.isNone && rj.metricNamePfx.isNone then
    some (goStrLess (gvkString ri) (gvkString rj))
  else
    match ri.metricNamePfx with
    | none => none
    | some _ =>
      let a := ""
      let b :=
        match rj.metricNamePfx with
        | some p => p
        | none => ""
      some (goStrLess a b)

/-! ### Resource Builder: the version-setting pass of `NeedResourceFor`

`parser.NeedResourceFor` (parser.go lines 50-114) first gathers the packages
whose group matches, then walks them: packages where the type is absent or
the `GVKMarkerName` marker is missing are skipped; otherwise the resource
metrics are (re)computed and sorted, and the version is set — after a fatal
check that it is not already set. -/

/-- The data `NeedResourceFor` reads from one candidate package: its group and
version (`p.GroupVersions[pkg]`), whether `p.Types` has the `Kind` type
(`hasType`), whether that type carries the tracked-kind marker
(`hasGVKMarker`), and the generator list `p.NeedMetricsGeneratorFor` would
produce for it. -/
structure PkgDesc where
  group : String
  version : String
  hasType : Bool
  hasGVKMarker : Bool
  metrics : List Generator
deriving DecidableEq

/-- Insertion step for sorting generators by name ascending. -/
def insertGenByName (g : Generator) : List Generator → List Generator
  | [] => [g]
  | h :: t => if goStrLess g.name h.name then g :: h :: t else h :: insertGenByName g t

/-- The `sort.Slice` by `Metrics[i].Name < Metrics[j].Name` of
`NeedResourceFor`, modelled as insertion sort (the Go sort is unstable, and
generator names are the only compared data). -/
def sortGeneratorsByName : List Generator → List Generator
  | [] => []
  | h :: t => insertGenByName h (sortGeneratorsByName t)

/-- The package loop of `NeedResourceFor` (parser.go lines 70-93): skip a
package without the type or without the tracked-kind marker; otherwise
overwrite the metrics with the sorted generator list and set the version,
aborting fatally (`klog.Fatal`, modelled as `.error`) when the version is
already set to a non-empty string. -/
def versionLoopGo : List PkgDesc → Resource → Except String Resource
  | [], resource => .ok resource
  | pkg :: rest, resource =>
    if !pkg.hasType then versionLoopGo rest resource
    else if !pkg.hasGVKMarker then versionLoopGo rest resource
    else
      let resource := { resource with metrics := sortGeneratorsByName pkg.metrics }
      if resource.groupVersionKind.version ≠ "" then
        .error "GroupVersionKind.Version is already set"
      else
        versionLoopGo rest
          { resource with
              groupVersionKind := { resource.groupVersionKind with version := pkg.version } }

/-- The fresh resource `NeedResourceFor` starts from for a Group/Kind pair. -/
def emptyResource (gkGroup gkKind : String) : Resource :=
  { groupVersionKind := { group := gkGroup, version := "", kind := gkKind }
    metricNamePfx := none
    labelsFromPath := none
    metrics := [] }

/-- The group filter plus package loop of `NeedResourceFor` (its first pass,
parser.go lines 55-93). -/
def needResourceVersionPass (gkGroup gkKind : String) (pkgs : List PkgDesc) :
    Except String Resource :=
  versionLoopGo (pkgs.filter fun p => p.group == gkGroup) (emptyResource gkGroup gkKind)

/-- The packages of the candidate list that actually contribute (type present
and tracked-kind marker set), in order. -/
def matchingPkgs (gkGroup : String) (pkgs : List PkgDesc) : List PkgDesc :=
  (pkgs.filter fun p => p.group == gkGroup).filter fun p => p.hasType && p.hasGVKMarker

/-! ### Generator Assembler: `NeedMetricsGeneratorFor` and the type-graph walk

`parser.NeedMetricsGeneratorFor` (parser.go lines 166-198) assembles the
generator list for one `crd.TypeIdent`: an early return of nil when the type
is already in the `FlattenedMetrics` map, the type-level marker generators,
and per field (in declaration order) the field-level marker generators with
the JSON name as base path plus the recursion into the field type via
`generatorsFor` (parser.go lines 213-237), each recursion result getting the
JSON name prepended by `prependPathOnGenerator` (parser.go lines 200-211).

The parser state that the Go code carries in `p.FlattenedMetrics` is threaded
explicitly; note that — exactly as in the source — no code path ever adds an
entry to it. -/

/-- `crd.TypeIdent`: (owning package, type name). -/
structure TypeIdent where
  pkg : String
  name : String
deriving DecidableEq

/-- A marker value attached to a type or a field.  Only the first three kinds
implement the generator interface checked by `generatorsFromMarkers`; the
resource-level markers are skipped there. -/
inductive Marker where
  | gauge (g : GaugeMarker)
  | info (i : InfoMarker)
  | stateSet (s : StateSetMarker)
  | namePfxM (v : String)
  | labelFromPath (l : LabelFromPathMarker)
deriving DecidableEq

/-- The `val.(markers.LocalGeneratorMarker)` dispatch inside
`generatorsFromMarkers` (parser.go lines 150-164): the three metric markers
produce a generator (their `ToGenerator` never returns nil; a parse failure
inside it is `klog.Fatal`, modelled as `.error`), the others are skipped. -/
def Marker.toGeneratorOpt (m : Marker) (parse : Parse) (basePath : List String) :
    Except String (Option Generator) :=
  match m with
  | .gauge g => (g.toGenerator parse basePath).map some
  | .info i => (i.toGenerator parse basePath).map some
  | .stateSet s => (s.toGenerator parse basePath).map some
  | .namePfxM _ => .ok none
  | .labelFromPath _ => .ok none

/-- `generatorsFromMarkers` (parser.go lines 150-164): collect the generators
of every generator-capable marker, in order. -/
def generatorsFromMarkers (parse : Parse) (ms : List Marker) (basePath : List String) :
    Except String (List Generator) :=
  match ms with
  | [] => .ok []
  | m :: rest => do
    let g? ← m.toGeneratorOpt parse basePath
    let tail ← generatorsFromMarkers parse rest basePath
    match g? with
    | some g => pure (g :: tail)
    | none => pure tail

/-- `prependPathOnGenerator` (parser.go lines 200-211): prepend one path
segment to the stored path of the payload, for each of the three payload
kinds. -/
def prependPathOnGenerator (generator : Generator) (pathSeg : String) : Generator :=
  match generator.each with
  | .gauge g =>
    { generator with
        each := .gauge { g with meta := { g.meta with path := pathSeg :: g.meta.path } } }
  | .stateSet s =>
    { generator with
        each := .stateSet { s with meta := { s.meta with path := pathSeg :: s.meta.path } } }
  | .info i =>
    { generator with
        each := .info { i with meta := { i.meta with path := pathSeg :: i.meta.path } } }

/-- A field type expression as `generatorsFor` dispatches on it
(parser.go lines 213-237), with the `go/types` resolution of a plain
identifier (`localNamedToGenerators`, lines 239-262) folded in: an identifier
either fails to resolve (`identInvalid`, unloaded transitive dependency),
resolves to a basic type (`identBasic`), or resolves to a named type with its
defining package (`identNamed`). -/
inductive TypeExpr where
  | identNamed (t : TypeIdent)
  | identBasic
  | identInvalid
  | selector (x : TypeExpr)
  | star (x : TypeExpr)
  | array
  | mapT
  | structT
  | interfaceT
deriving DecidableEq

/-- Character-level splitting on commas (structurally recursive so that it
evaluates inside the kernel). -/
def splitCommaChars : List Char → List (List Char)
  | [] => [[]]
  | c :: rest =>
    let r := splitCommaChars rest
    if c = ',' then [] :: r
    else
      match r with
      | [] => [[c]]
      | h :: t => (c :: h) :: t

/-- Go `strings.Split(tag, ",")`: split at every comma; the empty string
yields one empty part. -/
def splitComma (s : String) : List String :=
  (splitCommaChars s.data).map fun cs => String.mk cs

/-- One struct field as seen by `NeedMetricsGeneratorFor`: the raw `json` tag
(`none` when the tag is absent), the field markers, and the declared type. -/
structure FieldDef where
  jsonTag : Option String
  markers : List Marker
  rawType : TypeExpr
deriving DecidableEq

/-- One type declaration: its type-level markers and its fields in declaration
order (`markers.TypeInfo`). -/
structure TypeDef where
  markers : List Marker
  fields : List FieldDef
deriving DecidableEq

/-- The `p.FlattenedMetrics` map (association list). -/
abbrev ParserState := List (TypeIdent × List Generator)

/-- Result of a (possibly recursive) generator computation: the final parser
state with the generator list, a fatal abort (`klog.Fatal`), or exhaustion of
the modelled recursion depth — the Go code, having no depth bound, has not
returned within the given fuel. -/
inductive GenRes where
  | ok (st : ParserState) (gens : List Generator)
  | fatal (msg : String)
  | fuelOut
deriving DecidableEq

/-- `generatorsFor` (parser.go lines 213-237): dispatch on the shape of the
field type expression.  Arrays and maps contribute nothing, pointers and
qualified references unwrap, inline structs and interfaces are fatal, and a
resolved named type is delegated to `requestGenerator`, i.e. to the recursion
argument `recur`. -/
def generatorsForExpr (recur : ParserState → TypeIdent → GenRes) :
    ParserState → TypeExpr → GenRes
  | st, .identNamed t => recur st t
  | st, .identBasic => .ok st []
  | st, .identInvalid => .ok st []
  | st, .selector x => generatorsForExpr recur st x
  | st, .star x => generatorsForExpr recur st x
  | st, .array => .ok st []
  | st, .mapT => .ok st []
  | _, .structT => .fatal "unsupported AST kind"
  | _, .interfaceT => .fatal "unsupported AST kind"

/-- The field loop of `NeedMetricsGeneratorFor` (parser.go lines 177-195):
skip a field without a `json` tag or whose tag is exactly `-`; otherwise
collect the field-marker generators with the JSON name as base path, recurse
into the field type, and prepend the JSON name to every recursion result. -/
def genFields (parse : Parse) (recur : ParserState → TypeIdent → GenRes) :
    ParserState → List FieldDef → GenRes
  | st, [] => .ok st []
  | st, f :: rest =>
    match f.jsonTag with
    | none => genFields parse recur st rest
    | some tag =>
      let jsonOpts := splitComma tag
      if jsonOpts == ["-"] then genFields parse recur st rest
      else
        let fieldName := jsonOpts.headD ""
        match generatorsFromMarkers parse f.markers [fieldName] with
        | .error e => .fatal e
        | .ok markerGens =>
          match generatorsForExpr recur st f.rawType with
          | .fatal m => .fatal m
          | .fuelOut => .fuelOut
          | .ok st' recGens =>
            match genFields parse recur st' rest with
            | .fatal m => .fatal m
            | .fuelOut => .fuelOut
            | .ok st'' restGens =>
              .ok st''
                (markerGens ++ recGens.map (fun g => prependPathOnGenerator g fieldName)
                  ++ restGens)

/-- `parser.NeedMetricsGeneratorFor` (parser.go lines 166-198).  A type found
in `FlattenedMetrics` immediately yields nil; a type without info is fatal;
otherwise the type-level marker generators are followed by the field loop.
As in the source, the state is never extended: the `FlattenedMetrics` guard
reads a map into which nothing is ever inserted. -/
def needMetricsGeneratorFor (types : TypeIdent → Option TypeDef) (parse : Parse) :
    Nat → ParserState → TypeIdent → GenRes
  | 0, _, _ => .fuelOut
  | Nat.succ fuel, st, typ =>
    if st.any (fun kv => kv.1 == typ) then .ok st []
    else
      match types typ with
      | none => .fatal "expected to get info for type but does not exist"
      | some typeDef =>
        match generatorsFromMarkers parse typeDef.markers [] with
        | .error e => .fatal e
        | .ok typeGens =>
          match genFields parse (fun st' t => needMetricsGeneratorFor types parse fuel st' t)
              st typeDef.fields with
          | .fatal m => .fatal m
          | .fuelOut => .fuelOut
          | .ok st' fieldGens => .ok st' (typeGens ++ fieldGens)

/-! ### Concrete instances used by counterexamples and witnesses -/

/-- A resource with metric name prefix `a`. -/
def c1resA : Resource :=
  { groupVersionKind := { group := "g", version := "v1", kind := "A" }
    metricNamePfx := some "a", labelsFromPath := none, metrics := [] }

/-- A resource with metric name prefix `b`. -/
def c1resB : Resource :=
  { groupVersionKind := { group := "g", version := "v1", kind := "B" }
    metricNamePfx := some "b", labelsFromPath := none, metrics := [] }

/-- A resource without a metric name prefix. -/
def c1resC : Resource :=
  { groupVersionKind := { group := "g", version := "v1", kind := "C" }
    metricNamePfx := none, labelsFromPath := none, metrics := [] }

/-- A second resource without a metric name prefix. -/
def c1resD : Resource :=
  { groupVersionKind := { group := "g", version := "v1", kind := "D" }
    metricNamePfx := none, labelsFromPath := none, metrics := [] }

/-- A parse function resolving only the empty expression (to the empty
segment list), as the real parser does for an empty `JSONPath`. -/
def parseEmptyOnly : Parse :=
  fun s => if s == "" then .ok [] else .error "parse JSONPath: unsupported"

/-- The type identity of a type carrying one type-level gauge marker. -/
def tFoo : TypeIdent := { pkg := "example.com/api", name := "Foo" }

/-- A gauge marker with empty path expression. -/
def c2Gauge : GaugeMarker :=
  { name := "foo_metric", help := "", jsonPath := "", labelFromKey := ""
    labelsFromPath := [], nilIsZero := false, valueFrom := none }

/-- A type universe with a single type `Foo` carrying one type-level gauge
marker and no fields. -/
def c2Types : TypeIdent → Option TypeDef :=
  fun t => if t = tFoo then some { markers := [.gauge c2Gauge], fields := [] } else none

/-- The generator `NeedMetricsGeneratorFor` produces for `Foo`. -/
def c2ExpectedGen : Generator :=
  { name := "foo_metric", help := ""
    each := .gauge
      { nilIsZero := false
        meta := { path := [], labelsFromPath := [] }
        labelFromKey := "", valueFrom := [] } }

/-- The type identity of a structurally recursive type. -/
def tNode : TypeIdent := { pkg := "example.com/api", name := "Node" }

/-- A type universe with a single self-referential type:
`type Node struct { Child Node `json:"child"` }`. -/
def c3Types : TypeIdent → Option TypeDef :=
  fun t =>
    if t = tNode then
      some { markers := []
             fields := [{ jsonTag := some "child", markers := [], rawType := .identNamed tNode }] }
    else none

/-- The type identity of the outer type of the path-accumulation scenario. -/
def tOuter : TypeIdent := { pkg := "example.com/api", name := "Widget" }

/-- The type identity of the nested status type. -/
def tStatus : TypeIdent := { pkg := "example.com/api", name := "WidgetStatus" }

/-- The gauge marker attached to the `replicas` field, with empty path
expression. -/
def c7Gauge : GaugeMarker :=
  { name := "replicas_metric", help := "", jsonPath := "", labelFromKey := ""
    labelsFromPath := [], nilIsZero := false, valueFrom := none }

/-- The two-level type universe of the scenario: `Widget` has a field tagged
`status` of type `WidgetStatus`, which has a field tagged `replicas` carrying
a gauge marker. -/
def c7Types : TypeIdent → Option TypeDef :=
  fun t =>
    if t = tOuter then
      some { markers := []
             fields := [{ jsonTag := some "status", markers := [], rawType := .identNamed tStatus }] }
    else if t = tStatus then
      some { markers := []
             fields := [{ jsonTag := some "replicas", markers := [.gauge c7Gauge],
                          rawType := .identBasic }] }
    else none

/-- The generator the scenario produces: path `["status", "replicas"]`. -/
def c7ExpectedGen : Generator :=
  { name := "replicas_metric", help := ""
    each := .gauge
      { nilIsZero := false
        meta := { path := ["status", "replicas"], labelsFromPath := [] }
        labelFromKey := "", valueFrom := [] } }

/-- A parse function resolving `.foo` to `["foo"]` and everything else to the
empty segment list. -/
def c4Parse : Parse :=
  fun s => if s == ".foo" then .ok ["foo"] else .ok []

/-- A state-set marker with the path expression `.foo` present. -/
def c4SS : StateSetMarker :=
  { name := "m", help := "", labelsFromPath := [], jsonPath := some ".foo"
    labelName := "", list := [] }

/-- A gauge marker for the amended-claim witness. -/
def c4wGauge : GaugeMarker :=
  { name := "n", help := "", jsonPath := "", labelFromKey := ""
    labelsFromPath := [], nilIsZero := false, valueFrom := none }

/-- The generator the witness gauge marker produces at base path `["b"]`. -/
def c4wGaugeGen : Generator :=
  { name := "n", help := ""
    each := .gauge
      { nilIsZero := false, meta := { path := ["b"], labelsFromPath := [] }
        labelFromKey := "", valueFrom := [] } }

/-- An info marker with no path expression, for the amended-claim witness. -/
def c4wInfo : InfoMarker :=
  { name := "n", help := "", labelsFromPath := [], jsonPath := "", labelFromKey := "" }

/-- The generator the witness info marker produces at base path `["b"]`. -/
def c4wInfoGen : Generator :=
  { name := "n", help := ""
    each := .info { meta := { path := ["b"], labelsFromPath := [] }, labelFromKey := "" } }

/-- A state-set marker with path expression present, for the witness. -/
def c4wSS : StateSetMarker :=
  { name := "n", help := "", labelsFromPath := [], jsonPath := some ""
    labelName := "", list := [] }

/-- The generator the witness state-set marker produces at base path `["b"]`:
the path stays `["b"]` even though a path expression is present. -/
def c4wSSGen : Generator :=
  { name := "n", help := ""
    each := .stateSet
      { meta := { path := ["b"], labelsFromPath := [] }
        list := [], labelName := "", valueFrom := [] } }

/-- A parse function behaving as the real parser does on the expression `.`:
the braced template `{.}` parses to one field node with the empty name, so
`Parse` yields `[""]`. -/
def c5Parse : Parse :=
  fun s => if s == "." then .ok [""] else .ok []

/-- A state-set marker with one per-label path entry whose expression is `.`. -/
def c5SS : StateSetMarker :=
  { name := "m", help := "", labelsFromPath := [("l", ".")], jsonPath := none
    labelName := "", list := [] }

/-- A parse function resolving `.` to `["z"]`, used to exhibit that the
state-set label loop consults the parser at `.`. -/
def c5wParse : Parse :=
  fun s => if s == "." then .ok ["z"] else .ok []

/-- A gauge marker with a `.` per-label path entry. -/
def c5wGauge : GaugeMarker :=
  { name := "n", help := "", jsonPath := "", labelFromKey := ""
    labelsFromPath := [("l", ".")], nilIsZero := false, valueFrom := none }

/-- An info marker with a `.` per-label path entry. -/
def c5wInfo : InfoMarker :=
  { name := "n", help := "", labelsFromPath := [("l", ".")], jsonPath := ""
    labelFromKey := "" }

/-- The generator `c5wGauge` produces at the empty base path under `c5wParse`:
the `.` entry became the empty path. -/
def c5wGaugeGen : Generator :=
  { name := "n", help := ""
    each := .gauge
      { nilIsZero := false, meta := { path := [], labelsFromPath := [("l", [])] }
        labelFromKey := "", valueFrom := [] } }

/-- The generator `c5wInfo` produces at the empty base path under `c5wParse`. -/
def c5wInfoGen : Generator :=
  { name := "n", help := ""
    each := .info { meta := { path := [], labelsFromPath := [("l", [])] }, labelFromKey := "" } }

/-- The generator `c5SS` produces at the empty base path under `c5wParse`: the
`.` entry was parsed, yielding `["z"]`. -/
def c5wSSGen : Generator :=
  { name := "m", help := ""
    each := .stateSet
      { meta := { path := [], labelsFromPath := [("l", ["z"])] }
        list := [], labelName := "", valueFrom := [] } }

/-- The parse function of the label-conflict witnesses: `p` resolves to
`["a"]` and `q` to `["b"]`. -/
def c6Parse : Parse :=
  fun s => if s == "p" then .ok ["a"] else if s == "q" then .ok ["b"] else .error "bad"

/-- A label marker for label `team` with expression `p`. -/
def c6Marker : LabelFromPathMarker := { name := "team", jsonPath := "p" }

/-- A label marker for label `team` with expression `q` (a different path). -/
def c10Marker : LabelFromPathMarker := { name := "team", jsonPath := "q" }

/-- A label marker for a label not yet present on the resource. -/
def c6bMarker : LabelFromPathMarker := { name := "owner", jsonPath := "q" }

/-- A resource already carrying `team -> ["a"]`. -/
def c6Res : Resource :=
  { groupVersionKind := { group := "g", version := "v1", kind := "K" }
    metricNamePfx := some "pfx", labelsFromPath := some [("team", ["a"])], metrics := [] }

/-- A candidate package declaring the kind (type present, marker set) at
version `v1`. -/
def c8pkgA : PkgDesc :=
  { group := "g", version := "v1", hasType := true, hasGVKMarker := true, metrics := [] }

/-- A second candidate package declaring the same kind at the same version. -/
def c8pkgB : PkgDesc :=
  { group := "g", version := "v1", hasType := true, hasGVKMarker := true, metrics := [] }

/-- A package of another group. -/
def c8pkgOther : PkgDesc :=
  { group := "h", version := "v9", hasType := true, hasGVKMarker := true, metrics := [] }

/-- A package of the right group where the type lacks the tracked-kind
marker. -/
def c8pkgNoMarker : PkgDesc :=
  { group := "g", version := "v2", hasType := true, hasGVKMarker := false, metrics := [] }

/-- A package of the right group where the type is absent. -/
def c8pkgNoType : PkgDesc :=
  { group := "g", version := "v3", hasType := false, hasGVKMarker := false, metrics := [] }

/-- An external jsonpath parser returning a single selector chain of the two
field names `a` and `b` for every expression. -/
def c9extChain : String → Except String (List JPNode) :=
  fun _ => .ok [.list [.field "a", .field "b"]]

/-- An external jsonpath parser returning a single non-list root node. -/
def c9extNonList : String → Except String (List JPNode) :=
  fun _ => .ok [.nonList]

/-! ## Theorems -/

/-! ### Shared helper lemmas -/

theorem ebind_ok {α β : Type} (a : α) (f : α → Except String β) :
    (Except.ok a >>= f) = f a := rfl

theorem ebind_error {α β : Type} (e : String) (f : α → Except String β) :
    ((Except.error e : Except String α) >>= f) = Except.error e := rfl

theorem epure_eq_ok {α : Type} (a : α) : (pure a : Except String α) = Except.ok a := rfl

/-- Membership transport through `mapMEx`: every input element was mapped
successfully to some output element. -/
theorem mapMEx_mem {α β : Type} {f : α → Except String β} :
    ∀ {l : List α} {out : List β}, mapMEx f l = .ok out →
      ∀ a ∈ l, ∃ b, f a = .ok b ∧ b ∈ out := by
  intro l
  induction l with
  | nil => intro out _ a ha; exact absurd ha (List.not_mem_nil a)
  | cons x rest ih =>
    intro out h a ha
    unfold mapMEx at h
    cases hx : f x with
    | error e => rw [hx, ebind_error] at h; exact Except.noConfusion h
    | ok b =>
      rw [hx, ebind_ok] at h
      cases ht : mapMEx f rest with
      | error e => rw [ht, ebind_error] at h; exact Except.noConfusion h
      | ok tail =>
        rw [ht, ebind_ok, epure_eq_ok] at h
        injection h with h
        rcases List.mem_cons.mp ha with rfl | ha'
        · exact ⟨b, hx, h ▸ List.mem_cons_self b tail⟩
        · rcases ih ht a ha' with ⟨b', hb', hmem⟩
          exact ⟨b', hb', h ▸ List.mem_cons_of_mem b hmem⟩

/-- Inversion of a successful `GaugeMarker.toGenerator`: every intermediate
parse succeeded and the generator is exactly the built record. -/
theorem gauge_toGenerator_ok {g : GaugeMarker} {parse : Parse} {bp : List String}
    {gen : Generator} (h : g.toGenerator parse bp = .ok gen) :
    ∃ addl vf L, parse g.jsonPath = .ok addl ∧
      resolveOptJSONPath parse g.valueFrom = .ok vf ∧
      mapMEx (resolveLabelEntrySkipDot parse) g.labelsFromPath = .ok L ∧
      gen = { name := g.name, help := g.help
              each := .gauge
                { nilIsZero := g.nilIsZero
                  meta := { path := bp ++ addl, labelsFromPath := L }
                  labelFromKey := g.labelFromKey
                  valueFrom := vf } } := by
  unfold GaugeMarker.toGenerator at h
  cases hj : parse g.jsonPath with
  | error e => rw [hj, ebind_error] at h; exact Except.noConfusion h
  | ok addl =>
    rw [hj] at h
    simp only [ebind_ok] at h
    cases hv : resolveOptJSONPath parse g.valueFrom with
    | error e => rw [hv, ebind_error] at h; exact Except.noConfusion h
    | ok vf =>
      rw [hv] at h
      simp only [ebind_ok] at h
      cases hl : mapMEx (resolveLabelEntrySkipDot parse) g.labelsFromPath with
      | error e => rw [hl, ebind_error] at h; exact Except.noConfusion h
      | ok L =>
        rw [hl] at h
        simp only [ebind_ok, epure_eq_ok] at h
        injection h with h
        exact ⟨addl, vf, L, rfl, rfl, rfl, h.symm⟩

/-- Inversion of a successful `InfoMarker.toGenerator`. -/
theorem info_toGenerator_ok {i : InfoMarker} {parse : Parse} {bp : List String}
    {gen : Generator} (h : i.toGenerator parse bp = .ok gen) :
    ∃ pathv L, mapMEx (resolveLabelEntrySkipDot parse) i.labelsFromPath = .ok L ∧
      gen = { name := i.name, help := i.help
              each := .info
                { meta := { path := pathv, labelsFromPath := L }
                  labelFromKey := i.labelFromKey } } ∧
      ((i.jsonPath = "" ∧ pathv = bp) ∨
        (i.jsonPath ≠ "" ∧ ∃ vf, parse i.jsonPath = .ok vf ∧
          pathv = if vf.length > 0 then bp ++ vf else bp)) := by
  unfold InfoMarker.toGenerator at h
  by_cases hne : i.jsonPath = ""
  · rw [if_neg (by simp [hne])] at h
    simp only [epure_eq_ok, ebind_ok] at h
    cases hl : mapMEx (resolveLabelEntrySkipDot parse) i.labelsFromPath with
    | error e =>
      rw [hl] at h
      simp only [ebind_error] at h
      exact Except.noConfusion h
    | ok L =>
      rw [hl] at h
      simp only [ebind_ok, epure_eq_ok] at h
      injection h with h
      exact ⟨bp, L, rfl, h.symm, Or.inl ⟨hne, rfl⟩⟩
  · rw [if_pos (by simp [hne])] at h
    cases hj : parse i.jsonPath with
    | error e =>
      rw [hj] at h
      simp only [ebind_error] at h
      exact Except.noConfusion h
    | ok vf =>
      rw [hj] at h
      simp only [ebind_ok, epure_eq_ok] at h
      cases hl : mapMEx (resolveLabelEntrySkipDot parse) i.labelsFromPath with
      | error e =>
        rw [hl] at h
        simp only [ebind_error] at h
        exact Except.noConfusion h
      | ok L =>
        rw [hl] at h
        simp only [ebind_ok, epure_eq_ok] at h
        injection h with h
        exact ⟨_, L, rfl, h.symm, Or.inr ⟨hne, vf, rfl, rfl⟩⟩

/-- Inversion of a successful `StateSetMarker.toGenerator`: the stored path is
always the base path, and the parsed optional JSONPath lands in `valueFrom`. -/
theorem stateSet_toGenerator_ok {s : StateSetMarker} {parse : Parse} {bp : List String}
    {gen : Generator} (h : s.toGenerator parse bp = .ok gen) :
    ∃ vf L, resolveOptJSONPath parse s.jsonPath = .ok vf ∧
      mapMEx (resolveLabelEntry parse) s.labelsFromPath = .ok L ∧
      gen = { name := s.name, help := s.help
              each := .stateSet
                { meta := { path := bp, labelsFromPath := L }
                  list := s.list
                  labelName := s.labelName
                  valueFrom := vf } } := by
  unfold StateSetMarker.toGenerator at h
  cases hv : resolveOptJSONPath parse s.jsonPath with
  | error e => rw [hv, ebind_error] at h; exact Except.noConfusion h
  | ok vf =>
    rw [hv] at h
    simp only [ebind_ok] at h
    cases hl : mapMEx (resolveLabelEntry parse) s.labelsFromPath with
    | error e => rw [hl, ebind_error] at h; exact Except.noConfusion h
    | ok L =>
      rw [hl] at h
      simp only [ebind_ok, epure_eq_ok] at h
      injection h with h
      exact ⟨vf, L, rfl, rfl, h.symm⟩

/-- A path never differs from itself element-wise. -/
theorem pathsDiffer_self : ∀ v : List String, pathsDiffer v v = false := by
  intro v
  induction v with
  | nil => rfl
  | cons a rest ih =>
    unfold pathsDiffer at ih ⊢
    simp only [List.zip_cons_cons, List.any_cons, ih, Bool.or_false, bne_self_eq_false]

/-- With equal lengths, the element-wise loop reports no difference exactly
when the two paths are equal. -/
theorem pathsDiffer_eq_false_iff :
    ∀ {existing elems : List String}, existing.length = elems.length →
      (pathsDiffer existing elems = false ↔ existing = elems) := by
  intro existing
  induction existing with
  | nil =>
    intro elems hlen
    cases elems with
    | nil => simp [pathsDiffer]
    | cons b bs => exact absurd hlen (by simp)
  | cons a as ih =>
    intro elems hlen
    cases elems with
    | nil => exact absurd hlen (by simp)
    | cons b bs =>
      unfold pathsDiffer
      simp only [List.zip_cons_cons, List.any_cons, Bool.or_eq_false_iff, bne_eq_false_iff_eq]
      rw [List.length_cons, List.length_cons] at hlen
      constructor
      · rintro ⟨hab, hrest⟩
        exact by rw [hab, (ih (Nat.succ_injective hlen)).mp hrest]
      · intro h
        injection h with h1 h2
        exact ⟨h1, (ih (Nat.succ_injective hlen)).mpr h2⟩

/-- Re-inserting the value a key already maps to leaves the association list
unchanged. -/
theorem listInsert_self :
    ∀ {l : List (String × List String)} {k : String} {v : List String},
      listLookup l k = some v → listInsert l k v = l := by
  intro l
  induction l with
  | nil => intro k v h; exact absurd h (by simp [listLookup])
  | cons kv rest ih =>
    intro k v h
    unfold listLookup at h
    unfold listInsert
    by_cases hk : kv.1 == k
    · rw [if_pos hk] at h
      injection h with h
      rw [if_pos hk, ← h]
      have hkk : k = kv.1 := (beq_iff_eq.mp hk).symm
      rw [hkk]
    · rw [if_neg hk] at h
      rw [if_neg hk, ih h]

/-- Full case analysis of `LabelFromPathMarker.ApplyToResource` after a
successful parse of the marker's path expression; all claims about the label
map derive from this. -/
theorem applyToResource_cases (parse : Parse) (n : LabelFromPathMarker) (r : Resource)
    (elems : List String) (hp : parse n.jsonPath = .ok elems) :
    (lfpLookup r.labelsFromPath n.name = none →
      n.applyToResource parse r =
        ({ r with
            labelsFromPath := some (listInsert (r.labelsFromPath.getD []) n.name elems) },
          none)) ∧
    (∀ existing, lfpLookup r.labelsFromPath n.name = some existing →
      (elems = existing → n.applyToResource parse r = (r, none)) ∧
      (elems ≠ existing →
        n.applyToResource parse r =
          (r, some ("duplicate definition for label " ++ goQuote n.name)))) := by
  constructor
  · intro hnone
    cases hr : r.labelsFromPath with
    | none =>
      unfold LabelFromPathMarker.applyToResource
      simp only [hr, hp, Option.getD_some]
      rw [show listLookup [] n.name = none from rfl]
      simp [hr]
    | some l =>
      have hlook : listLookup l n.name = none := by
        unfold lfpLookup at hnone; rw [hr] at hnone; exact hnone
      unfold LabelFromPathMarker.applyToResource
      simp only [hr, hp, Option.getD_some]
      rw [hlook]
  · intro existing hsome
    cases hr : r.labelsFromPath with
    | none =>
      unfold lfpLookup at hsome; rw [hr] at hsome; exact Option.noConfusion hsome
    | some l =>
      have hlook : listLookup l n.name = some existing := by
        unfold lfpLookup at hsome; rw [hr] at hsome; exact hsome
      constructor
      · intro heq
        unfold LabelFromPathMarker.applyToResource
        simp only [hr, hp, Option.getD_some, hlook]
        have hlen : elems.length = existing.length := by rw [heq]
        rw [if_neg (by simp [hlen])]
        rw [heq, if_neg (by simp [pathsDiffer_self existing])]
        rw [listInsert_self hlook]
        have hrr : { r with labelsFromPath := some l } = r := by
          cases r; simp_all
        rw [hrr]
      · intro hne
        unfold LabelFromPathMarker.applyToResource
        simp only [hr, hp, Option.getD_some, hlook]
        by_cases hlen : elems.length = existing.length
        · rw [if_neg (by simp [hlen])]
          have hdiff : pathsDiffer existing elems = true := by
            rcases Bool.eq_false_or_eq_true (pathsDiffer existing elems) with ht | hf
            · exact ht
            · exact absurd ((pathsDiffer_eq_false_iff hlen.symm).mp hf).symm hne
          rw [if_pos hdiff]
        · rw [if_pos hlen]

/-- A package that is skipped (type absent or marker missing) leaves the loop
state untouched. -/
theorem versionLoopGo_skip {p : PkgDesc} (hm : (p.hasType && p.hasGVKMarker) = false)
    (ps : List PkgDesc) (r : Resource) :
    versionLoopGo (p :: ps) r = versionLoopGo ps r := by
  cases hT : p.hasType with
  | false => simp only [versionLoopGo]; rw [hT]; simp
  | true =>
    have hM : p.hasGVKMarker = false := by
      cases hMv : p.hasGVKMarker with
      | false => rfl
      | true => rw [hT, hMv] at hm; exact Bool.noConfusion hm
    simp only [versionLoopGo]
    rw [hT, hM]
    simp

/-- With no contributing package left, the loop returns the resource as is. -/
theorem versionLoopGo_nil_matching :
    ∀ (ps : List PkgDesc) (r : Resource),
      ps.filter (fun p => p.hasType && p.hasGVKMarker) = [] →
      versionLoopGo ps r = .ok r := by
  intro ps
  induction ps with
  | nil => intro r _; rfl
  | cons p rest ih =>
    intro r hf
    rw [List.filter_cons] at hf
    by_cases hm : (p.hasType && p.hasGVKMarker) = true
    · rw [if_pos hm] at hf
      exact absurd hf (by simp)
    · rw [if_neg hm] at hf
      rw [versionLoopGo_skip (Bool.not_eq_true _ ▸ Bool.of_not_eq_true hm) rest r]
      exact ih r hf

/-- Once the version is set non-empty, any further contributing package aborts
fatally. -/
theorem versionLoopGo_already_set :
    ∀ (ps : List PkgDesc) (r : Resource),
      r.groupVersionKind.version ≠ "" →
      ps.filter (fun p => p.hasType && p.hasGVKMarker) ≠ [] →
      versionLoopGo ps r = .error "GroupVersionKind.Version is already set" := by
  intro ps
  induction ps with
  | nil => intro r _ hne; exact absurd rfl hne
  | cons p rest ih =>
    intro r hv hne
    by_cases hm : (p.hasType && p.hasGVKMarker) = true
    · have hT : p.hasType = true := ((Bool.and_eq_true _ _).mp hm).1
      have hM : p.hasGVKMarker = true := ((Bool.and_eq_true _ _).mp hm).2
      simp only [versionLoopGo]
      rw [hT, hM]
      simp [hv]
    · have hm' : (p.hasType && p.hasGVKMarker) = false := Bool.of_not_eq_true hm
      rw [versionLoopGo_skip hm' rest r]
      refine ih r hv ?_
      rw [List.filter_cons, if_neg hm] at hne
      exact hne

/-- With exactly one contributing package `m` (and the version still unset),
the loop succeeds and sets the version from `m`, overwriting the metrics with
the sorted list of `m`. -/
theorem versionLoopGo_single :
    ∀ (ps : List PkgDesc) (r : Resource) (m : PkgDesc),
      r.groupVersionKind.version = "" →
      ps.filter (fun p => p.hasType && p.hasGVKMarker) = [m] →
      versionLoopGo ps r =
        .ok { r with
                metrics := sortGeneratorsByName m.metrics
                groupVersionKind := { r.groupVersionKind with version := m.version } } := by
  intro ps
  induction ps with
  | nil => intro r m _ hf; exact absurd hf (by simp)
  | cons p rest ih =>
    intro r m hv hf
    rw [List.filter_cons] at hf
    by_cases hm : (p.hasType && p.hasGVKMarker) = true
    · rw [if_pos hm] at hf
      injection hf with hpm hrest
      have hT : p.hasType = true := ((Bool.and_eq_true _ _).mp hm).1
      have hM : p.hasGVKMarker = true := ((Bool.and_eq_true _ _).mp hm).2
      simp only [versionLoopGo]
      rw [hT, hM]
      simp only [Bool.not_true, Bool.false_eq_true, if_false, ite_false]
      rw [if_neg (by simp [hv])]
      rw [hpm] at *
      exact versionLoopGo_nil_matching rest _ hrest
    · rw [if_neg hm] at hf
      rw [versionLoopGo_skip (Bool.of_not_eq_true hm) rest r]
      exact ih r m hv hf

/-- With two or more contributing packages, all of non-empty version, the loop
aborts fatally — even when the versions coincide. -/
theorem versionLoopGo_multi :
    ∀ (ps : List PkgDesc) (r : Resource),
      r.groupVersionKind.version = "" →
      (∀ p ∈ ps, (p.hasType && p.hasGVKMarker) = true → p.version ≠ "") →
      ∀ m1 m2 ms, ps.filter (fun p => p.hasType && p.hasGVKMarker) = m1 :: m2 :: ms →
      versionLoopGo ps r = .error "GroupVersionKind.Version is already set" := by
  intro ps
  induction ps with
  | nil => intro r _ _ m1 m2 ms hf; exact absurd hf (by simp)
  | cons p rest ih =>
    intro r hv hvv m1 m2 ms hf
    rw [List.filter_cons] at hf
    by_cases hm : (p.hasType && p.hasGVKMarker) = true
    · rw [if_pos hm] at hf
      injection hf with hpm hrest
      have hT : p.hasType = true := ((Bool.and_eq_true _ _).mp hm).1
      have hM : p.hasGVKMarker = true := ((Bool.and_eq_true _ _).mp hm).2
      simp only [versionLoopGo]
      rw [hT, hM]
      simp only [Bool.not_true, Bool.false_eq_true, if_false, ite_false]
      rw [if_neg (by simp [hv])]
      apply versionLoopGo_already_set
      · simpa using hvv p (List.mem_cons_self p rest) hm
      · rw [hrest]; simp
    · rw [if_neg hm] at hf
      rw [versionLoopGo_skip (Bool.of_not_eq_true hm) rest r]
      exact ih r hv (fun q hq hmq => hvv q (List.mem_cons_of_mem p hq) hmq) m1 m2 ms hf

/-- A chain consisting solely of field nodes resolves to its names in order. -/
theorem elemsToFields_map_field :
    ∀ names : List String, elemsToFields (names.map JPElem.field) = .ok names := by
  intro names
  induction names with
  | nil => rfl
  | cons a rest ih =>
    show elemsToFields (JPElem.field a :: rest.map JPElem.field) = .ok (a :: rest)
    unfold elemsToFields
    rw [ih, ebind_ok, epure_eq_ok]

/-- A chain that is not entirely made of field nodes fails. -/
theorem elemsToFields_not_all_fields :
    ∀ elems : List JPElem, (∀ names : List String, elems ≠ names.map JPElem.field) →
      ∃ e, elemsToFields elems = .error e := by
  intro elems
  induction elems with
  | nil => intro hno; exact absurd rfl (hno [])
  | cons x rest ih =>
    intro hno
    cases x with
    | other => exact ⟨_, rfl⟩
    | field v =>
      have hrest : ∀ names : List String, rest ≠ names.map JPElem.field := by
        intro names heq
        exact hno (v :: names) (by rw [List.map_cons, heq])
      rcases ih hrest with ⟨e, he⟩
      refine ⟨e, ?_⟩
      unfold elemsToFields
      rw [he, ebind_error]

/-- Reduction of `jsonPathParse` on a successful external parse. -/
theorem jsonPathParse_ok {external : String → Except String (List JPNode)} {j : String}
    {nodes : List JPNode} (h : external j = .ok nodes) :
    jsonPathParse external j = rootNodesToPath nodes := by
  unfold jsonPathParse
  rw [h]

/-- Reduction of `jsonPathParse` on a failed external parse. -/
theorem jsonPathParse_error {external : String → Except String (List JPNode)} {j : String}
    {e : String} (h : external j = .error e) :
    jsonPathParse external j = some (.error ("parse JSONPath: " ++ e)) := by
  unfold jsonPathParse
  rw [h]

/-! ### Claim theorems -/

/-- C1: the Document Assembler resource sort is claimed to order two resources
that both carry a `MetricNamePrefix` by that prefix ascending.  The embedded
comparison function contradicts this: for prefixes `a` and `b` it answers
`true` in both directions (the guard at generator.go line 99 reads `== nil`
where the comment above it implies `!= nil`, so the left operand is always
compared as the empty string), which no ascending order by prefix can do.
The second conjunct records that the neither-prefix half of the claim does
hold on the same comparison: resources without prefixes are ordered by their
`Group/Version/Kind` strings. -/
theorem c1_sort_code_bug :
    (resourceLess c1resA c1resB = some true ∧ resourceLess c1resB c1resA = some true) ∧
    (resourceLess c1resC c1resD = some true ∧ resourceLess c1resD c1resC = some false) := by
  decide

/-- C2: the claim says a second `NeedMetricsGeneratorFor` call for the same
`TypeIdent`, after a completed first call, returns the empty generator list.
The embedded code refutes this: the first call returns with the parser state
exactly as it received it (the `FlattenedMetrics` cache is read but never
written), so the second call — the same application on the state the first
call left behind — again returns the one-element generator list, not `[]`. -/
theorem c2_memoization_code_bug :
    needMetricsGeneratorFor c2Types parseEmptyOnly 2 [] tFoo = .ok [] [c2ExpectedGen] ∧
    needMetricsGeneratorFor c2Types parseEmptyOnly 2 [] tFoo ≠ .ok [] [] := by decide

/-- C3: the claim says the recursive walk terminates on a self-referential
type because the memoization cache breaks the cycle.  The embedded code
refutes this: on the type `Node` with a field `child Node`, the walk runs out
of any amount of fuel — the cache is never populated, so the recursion meets
the same state at every depth and never returns. -/
theorem c3_cycle_code_bug (fuel : Nat) :
    needMetricsGeneratorFor c3Types parseEmptyOnly fuel [] tNode = .fuelOut := by
  induction fuel with
  | zero => rfl
  | succ n ih =>
    have h1 : (splitComma "child" == ["-"]) = false := by decide
    have h2 : (splitComma "child").headD "" = "child" := by decide
    simp only [needMetricsGeneratorFor, genFields, generatorsForExpr, generatorsFromMarkers,
      c3Types, List.any_nil, Bool.false_eq_true, if_false, h1, h2, eq_self_iff_true, if_true,
      ite_true, ite_false, ih]

/-- C7: every generator produced by recursing into a field gets the field's
external JSON name prepended to its stored path, symmetrically for the three
payload kinds; in particular, a type with a field `status` whose type has a
field `replicas` carrying a gauge marker with empty path expression yields
exactly one generator, with path `["status", "replicas"]`. -/
theorem c7_prepend_path :
    (∀ (g : Generator) (seg : String),
      (prependPathOnGenerator g seg).path = seg :: g.path) ∧
    needMetricsGeneratorFor c7Types parseEmptyOnly 3 [] tOuter = .ok [] [c7ExpectedGen] ∧
    c7ExpectedGen.path = ["status", "replicas"] := by
  refine ⟨fun g seg => ?_, by decide, by decide⟩
  rcases g with ⟨n, h, e⟩
  cases e <;> rfl

/-- C4 counterexample: a state-set marker with path expression `.foo` (which
the parser resolves to `["foo"]`) still stores the base path `["a"]` verbatim
— not `["a"] ++ ["foo"]` as the claim requires for a present path
expression. -/
theorem c4_counterexample :
    (c4SS.toGenerator c4Parse ["a"]).map Generator.path = .ok ["a"] ∧
    c4Parse ".foo" = .ok ["foo"] ∧
    (["a"] : List String) ≠ ["a"] ++ ["foo"] := by decide

/-- C4 (amended): a Gauge generator stores `basePath ++ resolved JSONPath`;
an Info generator stores `basePath` verbatim when the JSONPath is empty and
`basePath ++ resolved JSONPath` when one is present; a StateSet generator
always stores `basePath` verbatim, its resolved JSONPath going to the
`valueFrom` field instead. -/
theorem c4_amended (parse : Parse) (basePath : List String) :
    (∀ (g : GaugeMarker) (gen : Generator) (addl : List String),
      g.toGenerator parse basePath = .ok gen → parse g.jsonPath = .ok addl →
      gen.path = basePath ++ addl) ∧
    (∀ (i : InfoMarker) (gen : Generator),
      i.toGenerator parse basePath = .ok gen →
      (i.jsonPath = "" → gen.path = basePath) ∧
      (∀ vf, i.jsonPath ≠ "" → parse i.jsonPath = .ok vf → gen.path = basePath ++ vf)) ∧
    (∀ (s : StateSetMarker) (gen : Generator),
      s.toGenerator parse basePath = .ok gen →
      gen.path = basePath ∧
      (∀ j vf, s.jsonPath = some j → parse j = .ok vf → gen.valueFromOf = some vf)) := by
  refine ⟨?_, ?_, ?_⟩
  · intro g gen addl h hj
    rcases gauge_toGenerator_ok h with ⟨addl', vf, L, hj', hv, hl, hgen⟩
    rw [hj] at hj'
    injection hj' with he
    subst he
    subst hgen
    simp [Generator.path, Metric.metaOf]
  · intro i gen h
    rcases info_toGenerator_ok h with ⟨pathv, L, hl, hgen, hcases⟩
    subst hgen
    constructor
    · intro hje
      rcases hcases with ⟨_, hpv⟩ | ⟨hne, _⟩
      · simp [Generator.path, Metric.metaOf, hpv]
      · exact absurd hje hne
    · intro vf hne hj
      rcases hcases with ⟨hje, _⟩ | ⟨_, vf', hj', hpv⟩
      · exact absurd hje hne
      · rw [hj] at hj'
        injection hj' with he
        subst he
        subst hpv
        cases vf with
        | nil => simp [Generator.path, Metric.metaOf]
        | cons a rest => simp [Generator.path, Metric.metaOf]
  · intro s gen h
    rcases stateSet_toGenerator_ok h with ⟨vf', L, hv, hl, hgen⟩
    subst hgen
    refine ⟨by simp [Generator.path, Metric.metaOf], ?_⟩
    intro j vf hj hpj
    rw [hj] at hv
    simp only [resolveOptJSONPath] at hv
    rw [hpj] at hv
    injection hv with he
    subst he
    simp [Generator.valueFromOf]

/-- Witness for C4 (amended) at concrete markers and base path `["b"]`. -/
theorem c4_amended_witness :
    Generator.path c4wGaugeGen = ["b"] ++ [] ∧
    Generator.path c4wInfoGen = ["b"] ∧
    Generator.path c4wSSGen = ["b"] := by
  have h := c4_amended parseEmptyOnly ["b"]
  refine ⟨h.1 c4wGauge c4wGaugeGen [] (by decide) (by decide), ?_, ?_⟩
  · exact (h.2.1 c4wInfo c4wInfoGen (by decide)).1 rfl
  · exact (h.2.2 c4wSS c4wSSGen (by decide)).1

/-- C5 counterexample: in the state-set label loop the `.` entry is handed to
the parser like any other expression — under the real parser behaviour
(`{.}` parses to one field node with the empty name) the produced label map
carries `[""]`, not the empty path the claim requires. -/
theorem c5_counterexample :
    (c5SS.toGenerator c5Parse []).map Generator.labelsOf = .ok [("l", [""])] ∧
    ([("l", [""])] : List (String × List String)) ≠ [("l", [])] := by decide

/-- C5 (amended): for Gauge and Info a `LabelsFromPath` entry that is exactly
`.` is mapped to the empty path without consulting the parser (the result
holds for every parse function); for StateSet every entry, `.` included, is
parsed, and the label receives whatever the parser returns for `.`. -/
theorem c5_amended (parse : Parse) (basePath : List String) (k : String) :
    (∀ (g : GaugeMarker) (gen : Generator), g.toGenerator parse basePath = .ok gen →
      (k, ".") ∈ g.labelsFromPath → (k, ([] : List String)) ∈ gen.labelsOf) ∧
    (∀ (i : InfoMarker) (gen : Generator), i.toGenerator parse basePath = .ok gen →
      (k, ".") ∈ i.labelsFromPath → (k, ([] : List String)) ∈ gen.labelsOf) ∧
    (∀ (s : StateSetMarker) (gen : Generator), s.toGenerator parse basePath = .ok gen →
      (k, ".") ∈ s.labelsFromPath →
      ∃ pv, parse "." = .ok pv ∧ (k, pv) ∈ gen.labelsOf) := by
  refine ⟨?_, ?_, ?_⟩
  · intro g gen h hmem
    rcases gauge_toGenerator_ok h with ⟨addl, vf, L, _, _, hl, hgen⟩
    subst hgen
    rcases mapMEx_mem hl (k, ".") hmem with ⟨b, hb, hbL⟩
    unfold resolveLabelEntrySkipDot at hb
    rw [if_neg (by simp)] at hb
    rw [epure_eq_ok] at hb
    injection hb with hb
    subst hb
    simpa [Generator.labelsOf, Metric.metaOf] using hbL
  · intro i gen h hmem
    rcases info_toGenerator_ok h with ⟨pathv, L, hl, hgen, _⟩
    subst hgen
    rcases mapMEx_mem hl (k, ".") hmem with ⟨b, hb, hbL⟩
    unfold resolveLabelEntrySkipDot at hb
    rw [if_neg (by simp)] at hb
    rw [epure_eq_ok] at hb
    injection hb with hb
    subst hb
    simpa [Generator.labelsOf, Metric.metaOf] using hbL
  · intro s gen h hmem
    rcases stateSet_toGenerator_ok h with ⟨vf, L, _, hl, hgen⟩
    subst hgen
    rcases mapMEx_mem hl (k, ".") hmem with ⟨b, hb, hbL⟩
    unfold resolveLabelEntry at hb
    dsimp only at hb
    cases hp : parse "." with
    | error e => rw [hp, ebind_error] at hb; exact Except.noConfusion hb
    | ok pv =>
      rw [hp] at hb
      simp only [ebind_ok, epure_eq_ok] at hb
      injection hb with hb
      subst hb
      exact ⟨pv, rfl, by simpa [Generator.labelsOf, Metric.metaOf] using hbL⟩

/-- Witness for C5 (amended) at concrete markers, the empty base path, and a
parse function that resolves `.` to `["z"]`. -/
theorem c5_amended_witness :
    ("l", ([] : List String)) ∈ Generator.labelsOf c5wGaugeGen ∧
    ("l", ([] : List String)) ∈ Generator.labelsOf c5wInfoGen ∧
    ∃ pv, c5wParse "." = .ok pv ∧ ("l", pv) ∈ Generator.labelsOf c5wSSGen := by
  have h := c5_amended c5wParse [] "l"
  exact ⟨h.1 c5wGauge c5wGaugeGen (by decide) (by decide),
         h.2.1 c5wInfo c5wInfoGen (by decide) (by decide),
         h.2.2 c5SS c5wSSGen (by decide) (by decide)⟩

/-- C6: `ApplyToResource` of a label marker inserts the resolved path under
the label name; when the label already exists, the call succeeds — leaving
the resource unchanged, no duplicate entry — exactly when the newly resolved
path equals the existing one element-wise, and otherwise reports the
duplicate-definition conflict error. -/
theorem c6_label_conflict (parse : Parse) (n : LabelFromPathMarker) (r : Resource)
    (elems : List String) (hp : parse n.jsonPath = .ok elems) :
    (lfpLookup r.labelsFromPath n.name = none →
      n.applyToResource parse r =
        ({ r with
            labelsFromPath := some (listInsert (r.labelsFromPath.getD []) n.name elems) },
          none)) ∧
    (∀ existing, lfpLookup r.labelsFromPath n.name = some existing →
      (((n.applyToResource parse r).2 = none) ↔ elems = existing) ∧
      (elems = existing → n.applyToResource parse r = (r, none)) ∧
      (elems ≠ existing →
        (n.applyToResource parse r).2 =
          some ("duplicate definition for label " ++ goQuote n.name))) := by
  rcases applyToResource_cases parse n r elems hp with ⟨hnone, hsome⟩
  refine ⟨hnone, fun existing hex => ?_⟩
  rcases hsome existing hex with ⟨heq, hne⟩
  refine ⟨⟨fun hsucc => ?_, fun h => by rw [heq h]⟩, fun h => heq h, fun h => by rw [hne h]⟩
  by_contra hneq
  rw [hne hneq] at hsucc
  exact Option.noConfusion hsucc

/-- Witness for C6: re-adding label `team` with the identical resolved path
succeeds and leaves the resource unchanged; adding a fresh label `owner`
inserts it. -/
theorem c6_label_conflict_witness :
    ((c6Marker.applyToResource c6Parse c6Res).2 = none ∧
      c6Marker.applyToResource c6Parse c6Res = (c6Res, none)) ∧
    c6bMarker.applyToResource c6Parse c6Res =
      ({ c6Res with
          labelsFromPath :=
            some (listInsert (c6Res.labelsFromPath.getD []) c6bMarker.name ["b"]) },
        none) := by
  constructor
  · have h := (c6_label_conflict c6Parse c6Marker c6Res ["a"] (by decide)).2 ["a"] (by decide)
    exact ⟨h.1.mpr rfl, h.2.1 rfl⟩
  · exact (c6_label_conflict c6Parse c6bMarker c6Res ["b"] (by decide)).1 (by decide)

/-- C10: when `ApplyToResource` reports the duplicate-definition conflict, the
returned resource is the input resource unchanged — in particular the
existing entry for the label, the name prefix, the group-version-kind and the
metrics are untouched. -/
theorem c10_conflict_preserves_resource (parse : Parse) (n : LabelFromPathMarker)
    (r : Resource) (existing elems : List String)
    (hl : lfpLookup r.labelsFromPath n.name = some existing)
    (hp : parse n.jsonPath = .ok elems) (hne : elems ≠ existing) :
    n.applyToResource parse r =
      (r, some ("duplicate definition for label " ++ goQuote n.name)) :=
  ((applyToResource_cases parse n r elems hp).2 existing hl).2 hne

/-- Witness for C10: a conflicting `team` label definition errors and returns
the resource as it was. -/
theorem c10_conflict_preserves_resource_witness :
    c10Marker.applyToResource c6Parse c6Res =
      (c6Res, some ("duplicate definition for label " ++ goQuote c10Marker.name)) :=
  c10_conflict_preserves_resource c6Parse c10Marker c6Res ["a"] ["b"] (by decide) (by decide)
    (by decide)

/-- C8 counterexample: two packages of the same group both declaring the kind
with the tracked-kind marker and the *same* version `v1` make the version
pass abort fatally — the claim, which predicts a fatal error only when the
second package attempts a *different* version, is refuted. -/
theorem c8_counterexample :
    needResourceVersionPass "g" "K" [c8pkgA, c8pkgB] =
      .error "GroupVersionKind.Version is already set" ∧
    c8pkgA.version = c8pkgB.version := by decide

/-- C8 (amended): assuming every matching package declares a non-empty
version, the resource version is set from the unique matching package when
there is exactly one; packages of another group, without the type, or without
the tracked-kind marker never set the version; and the fatal error is raised
exactly when a second matching package is processed while the version is
already set — even when the two versions are equal. -/
theorem c8_amended (gkGroup gkKind : String) (pkgs : List PkgDesc)
    (hv : ∀ p ∈ pkgs, (p.hasType && p.hasGVKMarker) = true → p.version ≠ "") :
    (matchingPkgs gkGroup pkgs = [] →
      needResourceVersionPass gkGroup gkKind pkgs = .ok (emptyResource gkGroup gkKind)) ∧
    (∀ m, matchingPkgs gkGroup pkgs = [m] →
      needResourceVersionPass gkGroup gkKind pkgs =
        .ok { emptyResource gkGroup gkKind with
                metrics := sortGeneratorsByName m.metrics
                groupVersionKind := { group := gkGroup, version := m.version, kind := gkKind } }) ∧
    (∀ m1 m2 ms, matchingPkgs gkGroup pkgs = m1 :: m2 :: ms →
      needResourceVersionPass gkGroup gkKind pkgs =
        .error "GroupVersionKind.Version is already set") := by
  have hv' : ∀ p ∈ pkgs.filter (fun q => q.group == gkGroup),
      (p.hasType && p.hasGVKMarker) = true → p.version ≠ "" :=
    fun p hp hm => hv p (List.mem_of_mem_filter hp) hm
  unfold matchingPkgs needResourceVersionPass
  refine ⟨?_, ?_, ?_⟩
  · intro hf
    exact versionLoopGo_nil_matching _ _ hf
  · intro m hf
    exact versionLoopGo_single _ _ m rfl hf
  · intro m1 m2 ms hf
    exact versionLoopGo_multi _ _ rfl hv' m1 m2 ms hf

/-- Witness for C8 (amended): among a package of another group, one without
the type, one without the marker and one matching package, the version comes
from the matching package. -/
theorem c8_amended_witness :
    needResourceVersionPass "g" "K" [c8pkgOther, c8pkgNoType, c8pkgA, c8pkgNoMarker] =
      .ok { emptyResource "g" "K" with
              metrics := sortGeneratorsByName c8pkgA.metrics
              groupVersionKind := { group := "g", version := "v1", kind := "K" } } := by
  have h := c8_amended "g" "K" [c8pkgOther, c8pkgNoType, c8pkgA, c8pkgNoMarker] (by decide)
  exact h.2.1 c8pkgA (by decide)

/-- C9: over the parse tree the external jsonpath library returns, the
`JSONPath.Parse` wrapper yields exactly the field names, in source order,
when the tree is a single selector chain of plain field nodes, and fails with
a parse error in every other case — when the external parse itself fails,
when there is more than one root node, when the single root node is not a
selector chain, or when the chain holds a non-field node.  (The empty
root-node list, on which the Go code would panic rather than error, is not
produced by the external parser for a braced template.) -/
theorem c9_jsonpath_parse (external : String → Except String (List JPNode)) (j : String) :
    (∀ e, external j = .error e →
      jsonPathParse external j = some (.error ("parse JSONPath: " ++ e))) ∧
    (∀ names : List String, external j = .ok [JPNode.list (names.map JPElem.field)] →
      jsonPathParse external j = some (.ok names)) ∧
    (∀ nodes : List JPNode, external j = .ok nodes → nodes ≠ [] →
      (∀ names : List String, nodes ≠ [JPNode.list (names.map JPElem.field)]) →
      ∃ e, jsonPathParse external j = some (.error e)) := by
  refine ⟨fun e he => ?_, fun names hn => ?_, fun nodes hn hne hnot => ?_⟩
  · exact jsonPathParse_error he
  · rw [jsonPathParse_ok hn]
    unfold rootNodesToPath
    rw [if_neg (by simp)]
    simp [elemsToFields_map_field names]
  · rw [jsonPathParse_ok hn]
    unfold rootNodesToPath
    by_cases hlen : nodes.length > 1
    · refine ⟨"expected a single JSONPath, got " ++ toString nodes.length, ?_⟩
      rw [if_pos hlen]
    · rw [if_neg hlen]
      cases nodes with
      | nil => exact absurd rfl hne
      | cons nd rest =>
        have hrest : rest = [] := by
          cases rest with
          | nil => rfl
          | cons a b =>
            exfalso
            apply hlen
            simp [List.length_cons]
        subst hrest
        cases nd with
        | nonList => exact ⟨_, rfl⟩
        | list elems =>
          have helems : ∀ names : List String, elems ≠ names.map JPElem.field := by
            intro names heq
            exact hnot names (by rw [heq])
          rcases elemsToFields_not_all_fields elems helems with ⟨e, he⟩
          exact ⟨e, by simp [he]⟩

/-- Witness for C9: a two-field chain resolves to its names; a non-list root
node fails. -/
theorem c9_jsonpath_parse_witness :
    jsonPathParse c9extChain "x" = some (.ok ["a", "b"]) ∧
    ∃ e, jsonPathParse c9extNonList "x" = some (.error e) := by
  constructor
  · exact (c9_jsonpath_parse c9extChain "x").2.1 ["a", "b"] rfl
  · exact (c9_jsonpath_parse c9extNonList "x").2.2 [JPNode.nonList] rfl (by decide)
      (fun names h => by simp at h)

end CRSM
